import Mathlib

/-!
Shallow embedding of the cross-source reconciliation core of the
`hgraph-api` service (`src/api-server.js`) together with theorems that
settle the specification's claims about it.

Conventions of the embedding:
* JavaScript strings are modelled as Lean `String`s (the hashes and
  identifiers involved are plain ASCII, where UTF-16 code-unit order and
  code-point order coincide).
* JavaScript numbers are modelled as exact integers (`Nat`/`Int`).  Every
  IEEE-754 double of magnitude above 2^53 is integer valued, and the
  fields the claims are about (nanosecond timestamps, tinybar amounts,
  account ids, status codes) are integers; where a claim's reasoning
  depends on a value being exactly representable this is noted at the
  definition.
* Absent / `null` / non-array JSON fields are modelled with `Option`.
-/

namespace HGraphApi

/-! ## `cleanTransactionHash` (api-server.js lines 82-84)

`hash.startsWith("\\x") ? hash.slice(2) : hash` -- the prefix is the two
characters backslash and `x`; `slice(2)` drops the first two code units. -/

/-- Embeds the JavaScript test `hash.startsWith("\\x")`: the first two
characters are a backslash followed by `x`. -/
def startsWithEscape (s : String) : Bool :=
  match s.data with
  | '\\' :: 'x' :: _ => true
  | _ => false

/-- Embeds `cleanTransactionHash` (api-server.js line 83). -/
def cleanTransactionHash (hash : String) : String :=
  if startsWithEscape hash then String.mk (hash.data.drop 2) else hash

/-! ## `compareAndGetStatus` (api-server.js lines 337-360) -/

/-- The `discrepancies` payload built at api-server.js lines 353-358. -/
structure Discrepancies where
  missing_in_dragonglass : List String
  missing_in_hgraph : List String
  dragonglass_count : Nat
  hgraph_count : Nat
  deriving Repr, DecidableEq

/-- The value returned by `compareAndGetStatus`: a status string and a
nullable discrepancies payload. -/
structure ComparisonResult where
  status : String
  discrepancies : Option Discrepancies
  deriving Repr, DecidableEq

/-- Embeds `compareAndGetStatus` (api-server.js lines 337-360).  The
JavaScript builds a `Set` from each list and keeps, from the other list,
the hashes the set lacks; `Set.has` on strings is plain string equality,
so membership in the set is membership in the originating list. -/
def compareAndGetStatus (dragonGlassHashes hgraphHashes : List String) :
    ComparisonResult :=
  let missingInDragonGlass :=
    hgraphHashes.filter (fun hash => !(dragonGlassHashes.contains hash))
  let missingInHGraph :=
    dragonGlassHashes.filter (fun hash => !(hgraphHashes.contains hash))
  if missingInDragonGlass.length = 0 ∧ missingInHGraph.length = 0 then
    { status := "match", discrepancies := none }
  else
    { status := "discrepancy_detected",
      discrepancies := some
        { missing_in_dragonglass := missingInDragonGlass,
          missing_in_hgraph := missingInHGraph,
          dragonglass_count := dragonGlassHashes.length,
          hgraph_count := hgraphHashes.length } }

/-! ## `nanosToISOString` (api-server.js lines 63-75)

The JavaScript computes `milliseconds = Math.floor(Number(str) / 1000000)`,
renders `new Date(milliseconds).toISOString()` and then replaces the
3-digit millisecond fraction (matched by the regex `\.(\d{3})Z$`) with the
6-digit zero-padded value of `Number(str) % 1000000`.  `Number`, division,
`Math.floor` and `%` are exact for integer values up to 2^53, the domain on
which this model is faithful. -/

/-- Embeds `String.prototype.padStart(n, c)`: pad on the left with `c` up to
length `n`. -/
def padStartChar (s : String) (n : Nat) (c : Char) : String :=
  if n ≤ s.length then s else String.mk (List.replicate (n - s.length) c) ++ s

/-- Two-digit zero-padded decimal rendering, as used by `Date#toISOString`
for month, day, hour, minute and second fields. -/
def pad2 (n : Nat) : String := padStartChar (Nat.repr n) 2 '0'

/-- Gregorian civil date from days since 1970-01-01 (the standard
era-decomposition algorithm); models the calendar arithmetic inside
JavaScript `Date`. -/
def civilFromDays (days : Nat) : Nat × Nat × Nat :=
  let z := days + 719468
  let era := z / 146097
  let doe := z % 146097
  let yoe := (doe - doe / 1460 + doe / 36524 - doe / 146096) / 365
  let y := yoe + era * 400
  let doy := doe - (365 * yoe + yoe / 4 - yoe / 100)
  let mp := (5 * doy + 2) / 153
  let d := doy - (153 * mp + 2) / 5 + 1
  let m := if mp < 10 then mp + 3 else mp - 9
  (if m ≤ 2 then y + 1 else y, m, d)

/-- Embeds `new Date(ms).toISOString()` for a nonnegative millisecond epoch
offset in years 1970-9999: `"YYYY-MM-DDTHH:mm:ss.mmmZ"`. -/
def toISOString (ms : Nat) : String :=
  let secs := ms / 1000
  let msRem := ms % 1000
  let days := secs / 86400
  let sod := secs % 86400
  let ymd := civilFromDays days
  padStartChar (Nat.repr ymd.1) 4 '0' ++ "-" ++ pad2 ymd.2.1 ++ "-" ++
    pad2 ymd.2.2 ++ "T" ++ pad2 (sod / 3600) ++ ":" ++
    pad2 (sod % 3600 / 60) ++ ":" ++ pad2 (sod % 60) ++ "." ++
    padStartChar (Nat.repr msRem) 3 '0' ++ "Z"

/-- Embeds `s.replace(/\.(\d{3})Z$/, "." + frac + "Z")`: when `s` ends with a
dot, three digits and `Z`, that 5-character suffix is replaced by
`"." + frac + "Z"`; otherwise `s` is returned unchanged.  Note that the
captured millisecond digits are discarded by the replacement, exactly as in
the source. -/
def replaceMsFracZ (s frac : String) : String :=
  let cs := s.data
  let n := cs.length
  match cs.drop (n - 5) with
  | ['.', a, b, c, 'Z'] =>
    if a.isDigit && b.isDigit && c.isDigit then
      String.mk (cs.take (n - 5)) ++ "." ++ frac ++ "Z"
    else s
  | _ => s

/-- Embeds `nanosToISOString` (api-server.js lines 63-75) on nonnegative
integer nanosecond values up to 2^53, where every JavaScript numeric step is
exact. -/
def nanosToISOString (nanos : Nat) : String :=
  let milliseconds := nanos / 1000000
  let remainingNanos := nanos % 1000000
  let isoBase := toISOString milliseconds
  replaceMsFracZ isoBase (padStartChar (Nat.repr remainingNanos) 6 '0')

/-! ## `transformHGraphToDragonGlass` (api-server.js lines 95-189) -/

/-- A raw `crypto_transfer` entry of the Source-B (HGraph) payload. -/
structure CryptoTransfer where
  entity_id : Nat
  amount : Int
  deriving Repr, DecidableEq

/-- A raw Source-B transaction, with exactly the fields
`transformHGraphToDragonGlass` reads.  The two nanosecond timestamps are
exact integer values (the string-or-number JavaScript representation after
the precision fix denotes this integer); `decoded_memo` is nullable and
`crypto_transfer` may be absent (`tx.crypto_transfer || []`). -/
structure RawTransaction where
  consensus_timestamp : Nat
  valid_start_ns : Nat
  payer_account_id : Nat
  node_account_id : Nat
  charged_tx_fee : Int
  result : Int
  decoded_memo : Option String
  transaction_hash : String
  crypto_transfer : Option (List CryptoTransfer)
  deriving Repr, DecidableEq

/-- A transfer in Dragon Glass format: `{accountID, amount}`. -/
structure Transfer where
  accountID : String
  amount : Int
  deriving Repr, DecidableEq

/-- A canonical (Dragon Glass format) transaction record, the object literal
built at api-server.js lines 148-168. -/
structure CanonicalRecord where
  transactionID : String
  readableTransactionID : String
  transactionHash : String
  payerID : String
  startTime : String
  nodeID : String
  consensusTime : String
  transactionFee : Int
  nodeFees : Int
  networkFees : Int
  transfers : List Transfer
  status : String
  amount : Int
  memo : String
  transactionType : String
  knownLabel : String
  typeLabel : String
  serviceType : String
  source : String
  deriving Repr, DecidableEq

/-- The facet buckets built at api-server.js lines 172-180.  JavaScript
objects with unique keys are modelled as association lists. -/
structure Facets where
  transactionTypes : List (String × Nat)
  payerID : List (String × Nat)
  serviceTypes : List (String × Nat)
  deriving Repr, DecidableEq

/-- The Dragon Glass response envelope `{size, totalCount, data, facets,
mapping}`; `mapping` is always `null` so it is modelled as `Option Unit`. -/
structure DGEnvelope where
  size : Nat
  totalCount : Nat
  data : List CanonicalRecord
  facets : Facets
  mapping : Option Unit
  deriving Repr, DecidableEq

/-- The input shape of `transformHGraphToDragonGlass`: the function only
reads `hgraphData.transaction`; `none` models the field being absent, null
or not an array (the guard `!hgraphData.transaction ||
!Array.isArray(hgraphData.transaction)`). -/
structure HGraphData where
  transaction : Option (List RawTransaction)
  deriving Repr, DecidableEq

/-- Embeds the per-transaction mapping function (api-server.js lines
111-169). -/
def transformTransaction (tx : RawTransaction) : CanonicalRecord :=
  let consensusTime := nanosToISOString tx.consensus_timestamp
  let startTime := nanosToISOString tx.valid_start_ns
  let transactionHash := cleanTransactionHash tx.transaction_hash
  let validStartSecs := tx.valid_start_ns / 1000000000
  let validStartNanos := tx.valid_start_ns % 1000000000
  let readableTransactionID :=
    "0.0." ++ Nat.repr tx.payer_account_id ++ "@" ++ Nat.repr validStartSecs ++
      "." ++ Nat.repr validStartNanos
  let transactionID :=
    padStartChar (Nat.repr tx.payer_account_id) 8 '0' ++
      Nat.repr tx.valid_start_ns
  let transfers := (tx.crypto_transfer.getD []).map (fun transfer =>
    { accountID := "0.0." ++ Nat.repr transfer.entity_id,
      amount := transfer.amount })
  let transactionFee := tx.charged_tx_fee
  let nodeFees :=
    ((transfers.find? (fun t =>
        t.accountID == "0.0." ++ Nat.repr tx.node_account_id &&
          decide (t.amount > 0))).map (fun t => t.amount)).getD 0
  let networkFees := transactionFee - nodeFees
  let amount := transactionFee
  { transactionID := transactionID,
    readableTransactionID := readableTransactionID,
    transactionHash := transactionHash,
    payerID := "0.0." ++ Nat.repr tx.payer_account_id,
    startTime := startTime,
    nodeID := "0.0." ++ Nat.repr tx.node_account_id,
    consensusTime := consensusTime,
    transactionFee := transactionFee,
    nodeFees := nodeFees,
    networkFees := networkFees,
    transfers := transfers,
    status := if tx.result = 22 then "SUCCESS" else "FAILED",
    amount := amount,
    memo := tx.decoded_memo.getD "",
    transactionType := "CRYPTO_TRANSFER",
    knownLabel := "CryptoTransfer",
    typeLabel := "Crypto Transfer",
    serviceType := "CRYPTO",
    source := "hgraphio" }

/-- Embeds `facets.payerID[k] = (facets.payerID[k] || 0) + 1` on the
association-list model of a JavaScript object: replace the value at the
first occurrence of the key, or append the key if absent. -/
def setCount : List (String × Nat) → String → Nat → List (String × Nat)
  | [], k, v => [(k, v)]
  | (k0, v0) :: rest, k, v =>
    if k0 = k then (k, v) :: rest else (k0, v0) :: setCount rest k v

/-- Reads `facets.payerID[k] || 0`. -/
def getCount (m : List (String × Nat)) (k : String) : Nat :=
  ((m.find? (fun p => p.1 == k)).map (fun p => p.2)).getD 0

/-- One step of the `forEach` on api-server.js lines 178-180. -/
def bumpCount (m : List (String × Nat)) (k : String) : List (String × Nat) :=
  setCount m k (getCount m k + 1)

/-- Embeds the facet construction (api-server.js lines 172-180). -/
def buildFacets (transformedData : List CanonicalRecord) : Facets :=
  { transactionTypes := [("CRYPTO_TRANSFER", transformedData.length)],
    payerID := transformedData.foldl (fun acc tx => bumpCount acc tx.payerID) [],
    serviceTypes := [("CRYPTO", transformedData.length)] }

/-- Embeds `transformHGraphToDragonGlass` (api-server.js lines 95-189). -/
def transformHGraphToDragonGlass (hgraphData : HGraphData) : DGEnvelope :=
  match hgraphData.transaction with
  | none =>
    { size := 0, totalCount := 0, data := [],
      facets := { transactionTypes := [], payerID := [], serviceTypes := [] },
      mapping := none }
  | some transactions =>
    let transformedData := transactions.map transformTransaction
    { size := transformedData.length,
      totalCount := transformedData.length,
      data := transformedData,
      facets := buildFacets transformedData,
      mapping := none }

/-! ## `createCanonicalHashArray` (api-server.js lines 318-329) -/

/-- The input of `createCanonicalHashArray`: a provider response that may
carry a Dragon Glass style `data` list and/or an HGraph style `transaction`
list; `none` models the field being absent or null (the JavaScript guards
`data.data ? ... : []` and `data.transaction ? ... : []`). -/
structure ApiData where
  data : Option (List CanonicalRecord)
  transaction : Option (List RawTransaction)
  deriving Repr, DecidableEq

/-- Embeds `createCanonicalHashArray` (api-server.js lines 318-329).
JavaScript `Array.prototype.sort()` on strings is lexicographic code-unit
order, which on the ASCII hashes involved coincides with the `String` order
used by `List.mergeSort`. -/
def createCanonicalHashArray (data : ApiData) (source : String) :
    List String :=
  if source = "dragonglass" then
    match data.data with
    | some records => (records.map (fun tx => tx.transactionHash)).mergeSort
    | none => []
  else if source = "hgraphio" then
    match data.transaction with
    | some txs =>
      (txs.map (fun tx => cleanTransactionHash tx.transaction_hash)).mergeSort
    | none => []
  else []

/-! ## `fixIntegerPrecision` (api-server.js lines 25-56)

JSON-like JavaScript values are modelled by `Json`.  Numeric leaves carry
exact integers: every IEEE-754 double of magnitude above 2^53 is integer
valued, and the fields this transform rewrites hold integer nanosecond
timestamps.  `undefined` and `null` are identified. -/

/-- A JSON-like JavaScript value. -/
inductive Json where
  | null : Json
  | bool (b : Bool) : Json
  | num (n : Int) : Json
  | str (s : String) : Json
  | arr (xs : List Json) : Json
  | obj (fields : List (String × Json)) : Json

/-- Embeds `Number.MAX_SAFE_INTEGER` = 2^53 - 1. -/
def maxSafeInteger : Nat := 2 ^ 53 - 1

/-- Embeds `Math.floor` on an integer-valued number: the identity.  (In the
only branch that applies it the value's string form uses `e+` notation,
which for a double forces magnitude at least 10^21, hence integrality.) -/
def mathFloor (n : Int) : Int := n

/-- Strip trailing `'0'` characters from a digit list. -/
def stripTrailingZeros (l : List Char) : List Char :=
  (l.reverse.dropWhile (fun c => c = '0')).reverse

/-- Plain decimal rendering of an integer, sign included. -/
def intToDecimalString (n : Int) : String :=
  if n < 0 then "-" ++ Nat.repr n.natAbs else Nat.repr n.natAbs

/-- Embeds `Number.prototype.toString()` on integer-valued doubles: plain
decimal digits below 10^21, and `d.ddd e+exp` shortest-mantissa exponential
notation from 10^21 on.  (For the exponential range this renders the exact
decimal digits of the integer with trailing zeros stripped, which agrees
with JavaScript's shortest round-trip output on the values considered
here, e.g. every power of ten.) -/
def jsNumToString (n : Int) : String :=
  if n.natAbs < 10 ^ 21 then intToDecimalString n
  else
    let digits := (Nat.repr n.natAbs).data
    let exp := digits.length - 1
    let mant :=
      match stripTrailingZeros digits with
      | [] => "0"
      | [d] => String.mk [d]
      | d :: rest => String.mk [d] ++ "." ++ String.mk rest
    (if n < 0 then "-" else "") ++ mant ++ "e+" ++ Nat.repr exp

/-- Embeds `string.includes("e+")`: some position starts with `e+`. -/
def hasEPlus : List Char → Bool
  | [] => false
  | 'e' :: '+' :: _ => true
  | _ :: rest => hasEPlus rest

mutual

/-- Embeds `fixIntegerPrecision` (api-server.js lines 25-56).  Non-container
leaves are returned unchanged; arrays map the function over their elements;
objects rewrite exactly the numeric `consensus_timestamp` /
`valid_start_ns` fields and recurse into every other value. -/
def fixIntegerPrecision : Json → Json
  | .null => .null
  | .bool b => .bool b
  | .num n => .num n
  | .str s => .str s
  | .arr xs => .arr (fixIntegerPrecisionList xs)
  | .obj fields => .obj (fixIntegerPrecisionFields fields)

/-- The `obj.map(fixIntegerPrecision)` part of the array branch. -/
def fixIntegerPrecisionList : List Json → List Json
  | [] => []
  | x :: xs => fixIntegerPrecision x :: fixIntegerPrecisionList xs

/-- The `for (const [key, value] of Object.entries(obj))` loop of the object
branch: a timestamp-named key holding a number whose string form uses `e+`
is stored as `Math.floor(value).toString()`; one whose magnitude exceeds
`Number.MAX_SAFE_INTEGER` is stored as `value.toString()`; any other number
under those keys is kept; every other value recurses. -/
def fixIntegerPrecisionFields : List (String × Json) → List (String × Json)
  | [] => []
  | (key, value) :: rest =>
    (if key = "consensus_timestamp" ∨ key = "valid_start_ns" then
      match value with
      | .num n =>
        if hasEPlus (jsNumToString n).data then
          (key, Json.str (jsNumToString (mathFloor n)))
        else if maxSafeInteger < n.natAbs then
          (key, Json.str (jsNumToString n))
        else (key, Json.num n)
      | v => (key, fixIntegerPrecision v)
    else (key, fixIntegerPrecision value)) :: fixIntegerPrecisionFields rest

end

/-- Formalizes the claim's measuring step `parse the fractional-seconds
digit field of an ISO-8601 timestamp back to nanoseconds`: the digits are
read as a decimal numeral and scaled to a 9-digit nanosecond count. -/
def fracDigitsAsNanos (s : String) : Nat :=
  (s.data.foldl (fun acc c => acc * 10 + (c.toNat - Char.toNat '0')) 0) *
    10 ^ (9 - s.length)

/-! ## Theorems -/

lemma filter_not_contains_eq_nil_iff (l m : List String) :
    m.filter (fun hash => !(l.contains hash)) = [] ↔ ∀ x ∈ m, x ∈ l := by
  rw [List.filter_eq_nil_iff]
  constructor
  · intro h x hx
    have := h x hx
    simpa using this
  · intro h x hx
    simpa using h x hx

lemma compare_condition_iff (dg hg : List String) :
    ((hg.filter (fun hash => !(dg.contains hash))).length = 0 ∧
        (dg.filter (fun hash => !(hg.contains hash))).length = 0) ↔
      (∀ x, x ∈ dg ↔ x ∈ hg) := by
  rw [List.length_eq_zero, List.length_eq_zero,
    filter_not_contains_eq_nil_iff, filter_not_contains_eq_nil_iff]
  constructor
  · intro h x
    exact ⟨fun hx => h.2 x hx, fun hx => h.1 x hx⟩
  · intro h
    exact ⟨fun x hx => (h x).mpr hx, fun x hx => (h x).mp hx⟩

/-- C1: `compareAndGetStatus(H1, H2)` returns status `"match"` iff the set of
elements of `H1` equals the set of elements of `H2`; the `discrepancies`
field is `null` exactly when the status is `"match"`, and the status is
always one of `"match"` and `"discrepancy_detected"`. -/
theorem compareAndGetStatus_match_iff_set_eq (H1 H2 : List String) :
    ((compareAndGetStatus H1 H2).status = "match" ↔ ∀ x, x ∈ H1 ↔ x ∈ H2)
    ∧ ((compareAndGetStatus H1 H2).discrepancies = none ↔
        (compareAndGetStatus H1 H2).status = "match")
    ∧ ((compareAndGetStatus H1 H2).status = "match" ∨
        (compareAndGetStatus H1 H2).status = "discrepancy_detected") := by
  have hc := compare_condition_iff H1 H2
  by_cases h : (H2.filter (fun hash => !(H1.contains hash))).length = 0 ∧
      (H1.filter (fun hash => !(H2.contains hash))).length = 0
  · simp only [compareAndGetStatus, if_pos h]
    refine ⟨?_, ?_, ?_⟩
    · simpa using hc.mp h
    · simp
    · simp
  · simp only [compareAndGetStatus, if_neg h]
    refine ⟨?_, ?_, ?_⟩
    · constructor
      · intro hEq
        exact absurd hEq (by decide)
      · intro hSet
        exact absurd (hc.mpr hSet) h
    · simp
    · simp

/-- C6: the comparator is symmetric in content: the `missing_in_dragonglass`
list of `compareAndGetStatus(H1, H2)` equals the `missing_in_hgraph` list of
`compareAndGetStatus(H2, H1)` (as nullable payload fields: both are absent
exactly when the status is `"match"`). -/
theorem compareAndGetStatus_symm (H1 H2 : List String) :
    ((compareAndGetStatus H1 H2).discrepancies.map
        (fun d => d.missing_in_dragonglass)) =
      ((compareAndGetStatus H2 H1).discrepancies.map
        (fun d => d.missing_in_hgraph)) := by
  by_cases h1 : (H2.filter (fun hash => !(H1.contains hash))).length = 0
  · by_cases h2 : (H1.filter (fun hash => !(H2.contains hash))).length = 0
    · simp only [compareAndGetStatus, if_pos (And.intro h1 h2),
        if_pos (And.intro h2 h1)]
      rfl
    · have n12 : ¬((H2.filter (fun hash => !(H1.contains hash))).length = 0 ∧
          (H1.filter (fun hash => !(H2.contains hash))).length = 0) :=
        fun hc => h2 hc.2
      have n21 : ¬((H1.filter (fun hash => !(H2.contains hash))).length = 0 ∧
          (H2.filter (fun hash => !(H1.contains hash))).length = 0) :=
        fun hc => h2 hc.1
      simp only [compareAndGetStatus, if_neg n12, if_neg n21]
      rfl
  · have n12 : ¬((H2.filter (fun hash => !(H1.contains hash))).length = 0 ∧
        (H1.filter (fun hash => !(H2.contains hash))).length = 0) :=
      fun hc => h1 hc.1
    have n21 : ¬((H1.filter (fun hash => !(H2.contains hash))).length = 0 ∧
        (H2.filter (fun hash => !(H1.contains hash))).length = 0) :=
      fun hc => h1 hc.2
    simp only [compareAndGetStatus, if_neg n12, if_neg n21]
    rfl

/-- C4 counterexample: on the hash `"\x5cx\x5cxab"` (backslash, `x`,
backslash, `x`, `a`, `b`) stripping the escape prefix twice does not equal
stripping it once: one strip yields `"\x5cxab"`, which still carries the
prefix, and a second strip removes it again. -/
theorem cleanTransactionHash_not_idem :
    cleanTransactionHash (cleanTransactionHash "\\x\\xab") ≠
      cleanTransactionHash "\\x\\xab" := by
  decide

/-- C4 (amended): for every hash string `h` whose once-stripped form does not
itself begin with the escape prefix `"\x5cx"` (true of every well-formed hex
hash, with or without a single escape prefix), applying
`cleanTransactionHash` twice gives the same result as applying it once. -/
theorem cleanTransactionHash_idem_of_not_escaped (h : String)
    (hne : startsWithEscape (cleanTransactionHash h) = false) :
    cleanTransactionHash (cleanTransactionHash h) = cleanTransactionHash h := by
  have hdef : cleanTransactionHash (cleanTransactionHash h) =
      if startsWithEscape (cleanTransactionHash h) = true then
        String.mk ((cleanTransactionHash h).data.drop 2)
      else cleanTransactionHash h := rfl
  rw [hdef, hne]
  simp

/-- C4 witness: the amended idempotence theorem applies to the concrete
escaped hash `"\x5cxab"`. -/
theorem cleanTransactionHash_idem_witness :
    cleanTransactionHash (cleanTransactionHash "\\xab") =
      cleanTransactionHash "\\xab" :=
  cleanTransactionHash_idem_of_not_escaped "\\xab" (by decide)

lemma toISOString_epoch : toISOString 0 = "1970-01-01T00:00:00.000Z" := by
  decide

lemma toISOString_sample :
    toISOString 1700000000123 = "2023-11-14T22:13:20.123Z" := by
  decide

/-- C8: when the input transaction list is absent (or not a list, modelled
by `none`) the transform returns the zero-value envelope (size 0, totalCount
0, empty data, empty facet buckets, `null` mapping) unchanged; when a
transaction list is present it returns the full envelope with `size` and
`totalCount` equal to the list length, the mapped data, the built facets and
`null` mapping. -/
theorem transformHGraphToDragonGlass_envelope (l : List RawTransaction) :
    transformHGraphToDragonGlass { transaction := none } =
      { size := 0, totalCount := 0, data := [],
        facets := { transactionTypes := [], payerID := [], serviceTypes := [] },
        mapping := none }
    ∧ transformHGraphToDragonGlass { transaction := some l } =
      { size := l.length, totalCount := l.length,
        data := l.map transformTransaction,
        facets := buildFacets (l.map transformTransaction),
        mapping := none } := by
  constructor
  · rfl
  · simp [transformHGraphToDragonGlass]

lemma setCount_bump_sum (m : List (String × Nat)) (k : String) :
    ((setCount m k (getCount m k + 1)).map (fun p => p.2)).sum =
      ((m.map (fun p => p.2)).sum) + 1 := by
  induction m with
  | nil => simp [setCount, getCount]
  | cons hd tl ih =>
    cases hd with
    | mk k0 v0 =>
      by_cases hk : k0 = k
      · subst hk
        simp [setCount, getCount]
        omega
      · have hbeq : (k0 == k) = false := by simp [hk]
        have hfind : getCount ((k0, v0) :: tl) k = getCount tl k := by
          simp [getCount, List.find?_cons, hbeq]
        rw [hfind]
        simp [setCount, hk, ih]
        omega

lemma foldl_bumpCount_sum (txs : List CanonicalRecord)
    (init : List (String × Nat)) :
    (((txs.foldl (fun acc tx => bumpCount acc tx.payerID) init)).map
        (fun p => p.2)).sum =
      ((init.map (fun p => p.2)).sum) + txs.length := by
  induction txs generalizing init with
  | nil => simp
  | cons hd tl ih =>
    rw [List.foldl_cons, ih]
    rw [bumpCount, setCount_bump_sum]
    simp
    omega

/-- C10: for a transaction list of length `n` the produced envelope has
`size = totalCount = n = data.length`, the single transaction-type bucket
and the single service-type bucket both count `n`, the per-payer facet
counts sum to `n`, and every data record carries the source tag
`"hgraphio"`. -/
theorem transformHGraphToDragonGlass_invariants (l : List RawTransaction) :
    (transformHGraphToDragonGlass { transaction := some l }).size = l.length
    ∧ (transformHGraphToDragonGlass { transaction := some l }).totalCount =
        l.length
    ∧ (transformHGraphToDragonGlass { transaction := some l }).data.length =
        l.length
    ∧ (transformHGraphToDragonGlass
          { transaction := some l }).facets.transactionTypes =
        [("CRYPTO_TRANSFER", l.length)]
    ∧ (transformHGraphToDragonGlass
          { transaction := some l }).facets.serviceTypes =
        [("CRYPTO", l.length)]
    ∧ ((transformHGraphToDragonGlass
          { transaction := some l }).facets.payerID.map
        (fun p => p.2)).sum = l.length
    ∧ (transformHGraphToDragonGlass { transaction := some l }).data.all
        (fun r => r.source == "hgraphio") = true := by
  refine ⟨by simp [transformHGraphToDragonGlass],
    by simp [transformHGraphToDragonGlass],
    by simp [transformHGraphToDragonGlass],
    by simp [transformHGraphToDragonGlass, buildFacets],
    by simp [transformHGraphToDragonGlass, buildFacets], ?_, ?_⟩
  · have := foldl_bumpCount_sum (l.map transformTransaction) []
    simp only [transformHGraphToDragonGlass, buildFacets]
    simpa using this
  · simp only [transformHGraphToDragonGlass, List.all_eq_true]
    intro tx htx
    obtain ⟨x, _, rfl⟩ := List.mem_map.mp htx
    rfl

/-- C5: in every canonical record, `transactionFee` is the raw
`charged_tx_fee`, `nodeFees` is the amount of the first transfer whose
`accountID` matches the node account id with a strictly positive amount (0
when no such transfer exists), and `networkFees = transactionFee -
nodeFees`. -/
theorem transformTransaction_fees (tx : RawTransaction) :
    (transformTransaction tx).transactionFee = tx.charged_tx_fee
    ∧ (transformTransaction tx).nodeFees =
        ((((transformTransaction tx).transfers.find? (fun t =>
            decide (t.accountID = "0.0." ++ Nat.repr tx.node_account_id ∧
              0 < t.amount))).map (fun t => t.amount)).getD 0)
    ∧ (transformTransaction tx).networkFees =
        (transformTransaction tx).transactionFee -
          (transformTransaction tx).nodeFees := by
  have hpred : (fun (t : Transfer) =>
      decide (t.accountID = "0.0." ++ Nat.repr tx.node_account_id ∧
        0 < t.amount)) = (fun (t : Transfer) =>
      t.accountID == "0.0." ++ Nat.repr tx.node_account_id &&
        decide (t.amount > 0)) := by
    funext t
    by_cases h1 : t.accountID = "0.0." ++ Nat.repr tx.node_account_id
    · by_cases h2 : (0 : Int) < t.amount
      · simp [h1, h2]
      · simp [h1, h2]
    · simp [h1]
  refine ⟨rfl, ?_, rfl⟩
  rw [hpred]
  rfl

/-- C7: `createCanonicalHashArray` always returns a lexicographically sorted
list; for tag `"dragonglass"` it is a permutation of the `transactionHash`
fields of the `data` records (empty when the list is missing), for tag
`"hgraphio"` a permutation of the cleaned `transaction_hash` fields (empty
when missing), and any other tag yields the empty list. -/
theorem createCanonicalHashArray_spec (d : ApiData) (src : String) :
    List.Sorted (fun a b => a ≤ b) (createCanonicalHashArray d src)
    ∧ (createCanonicalHashArray d "dragonglass").Perm
        ((d.data.getD []).map (fun tx => tx.transactionHash))
    ∧ (createCanonicalHashArray d "hgraphio").Perm
        ((d.transaction.getD []).map (fun tx =>
          cleanTransactionHash tx.transaction_hash))
    ∧ (src = "dragonglass" ∨ src = "hgraphio" ∨
        createCanonicalHashArray d src = []) := by
  refine ⟨?_, ?_, ?_, ?_⟩
  · unfold createCanonicalHashArray
    split
    · cases d.data with
      | none => simp
      | some records => exact List.sorted_mergeSort' _
    · split
      · cases d.transaction with
        | none => simp
        | some txs => exact List.sorted_mergeSort' _
      · simp
  · unfold createCanonicalHashArray
    simp only [if_pos rfl]
    cases d.data with
    | none => simp
    | some records => simpa using List.mergeSort_perm _ _
  · unfold createCanonicalHashArray
    rw [if_neg (by decide), if_pos rfl]
    cases d.transaction with
    | none => simp
    | some txs => simpa using List.mergeSort_perm _ _
  · by_cases h1 : src = "dragonglass"
    · exact Or.inl h1
    · by_cases h2 : src = "hgraphio"
      · exact Or.inr (Or.inl h2)
      · refine Or.inr (Or.inr ?_)
        unfold createCanonicalHashArray
        rw [if_neg h1, if_neg h2]

lemma fixIntegerPrecision_null :
    fixIntegerPrecision Json.null = Json.null := by
  simp [fixIntegerPrecision]

lemma fixIntegerPrecision_bool (b : Bool) :
    fixIntegerPrecision (Json.bool b) = Json.bool b := by
  simp [fixIntegerPrecision]

lemma fixIntegerPrecision_num (n : Int) :
    fixIntegerPrecision (Json.num n) = Json.num n := by
  simp [fixIntegerPrecision]

lemma fixIntegerPrecision_str (s : String) :
    fixIntegerPrecision (Json.str s) = Json.str s := by
  simp [fixIntegerPrecision]

lemma fixIntegerPrecision_arr (xs : List Json) :
    fixIntegerPrecision (Json.arr xs) =
      Json.arr (fixIntegerPrecisionList xs) := by
  simp [fixIntegerPrecision]

lemma fixIntegerPrecision_obj (fs : List (String × Json)) :
    fixIntegerPrecision (Json.obj fs) =
      Json.obj (fixIntegerPrecisionFields fs) := by
  simp [fixIntegerPrecision]

lemma fixFields_cons_nonnum (key : String) (v : Json)
    (rest : List (String × Json)) (hv : ∀ n, v ≠ Json.num n) :
    fixIntegerPrecisionFields ((key, v) :: rest) =
      (key, fixIntegerPrecision v) :: fixIntegerPrecisionFields rest := by
  rw [fixIntegerPrecisionFields.eq_3 key v rest (fun n h => hv n h), ite_self]

mutual

theorem fixIntegerPrecision_idem_aux : (v : Json) →
    fixIntegerPrecision (fixIntegerPrecision v) = fixIntegerPrecision v
  | .null => by rw [fixIntegerPrecision_null, fixIntegerPrecision_null]
  | .bool b => by rw [fixIntegerPrecision_bool, fixIntegerPrecision_bool]
  | .num n => by rw [fixIntegerPrecision_num, fixIntegerPrecision_num]
  | .str s => by rw [fixIntegerPrecision_str, fixIntegerPrecision_str]
  | .arr xs => by
    rw [fixIntegerPrecision_arr, fixIntegerPrecision_arr,
      fixIntegerPrecisionList_idem_aux xs]
  | .obj fs => by
    rw [fixIntegerPrecision_obj, fixIntegerPrecision_obj,
      fixIntegerPrecisionFields_idem_aux fs]

theorem fixIntegerPrecisionList_idem_aux : (xs : List Json) →
    fixIntegerPrecisionList (fixIntegerPrecisionList xs) =
      fixIntegerPrecisionList xs
  | [] => by simp [fixIntegerPrecisionList]
  | x :: xs => by
    simp only [fixIntegerPrecisionList]
    rw [fixIntegerPrecision_idem_aux x, fixIntegerPrecisionList_idem_aux xs]

theorem fixIntegerPrecisionFields_idem_aux : (fs : List (String × Json)) →
    fixIntegerPrecisionFields (fixIntegerPrecisionFields fs) =
      fixIntegerPrecisionFields fs
  | [] => by simp [fixIntegerPrecisionFields]
  | (key, value) :: rest => by
    cases value with
    | num n =>
      rw [fixIntegerPrecisionFields.eq_2]
      by_cases hk : key = "consensus_timestamp" ∨ key = "valid_start_ns"
      · rw [if_pos hk]
        by_cases he : hasEPlus (jsNumToString n).data = true
        · rw [if_pos he,
            fixFields_cons_nonnum key _ _ (fun m h => Json.noConfusion h),
            fixIntegerPrecision_str, fixIntegerPrecisionFields_idem_aux rest]
        · rw [if_neg he]
          by_cases hm : maxSafeInteger < n.natAbs
          · rw [if_pos hm,
              fixFields_cons_nonnum key _ _ (fun m h => Json.noConfusion h),
              fixIntegerPrecision_str,
              fixIntegerPrecisionFields_idem_aux rest]
          · rw [if_neg hm, fixIntegerPrecisionFields.eq_2, if_pos hk,
              if_neg he, if_neg hm, fixIntegerPrecisionFields_idem_aux rest]
      · rw [if_neg hk, fixIntegerPrecision_num,
          fixIntegerPrecisionFields.eq_2, if_neg hk,
          fixIntegerPrecision_num, fixIntegerPrecisionFields_idem_aux rest]
    | null =>
      rw [fixFields_cons_nonnum key _ _ (fun m h => Json.noConfusion h),
        fixIntegerPrecision_null,
        fixFields_cons_nonnum key _ _ (fun m h => Json.noConfusion h),
        fixIntegerPrecision_null, fixIntegerPrecisionFields_idem_aux rest]
    | bool b =>
      rw [fixFields_cons_nonnum key _ _ (fun m h => Json.noConfusion h),
        fixIntegerPrecision_bool,
        fixFields_cons_nonnum key _ _ (fun m h => Json.noConfusion h),
        fixIntegerPrecision_bool, fixIntegerPrecisionFields_idem_aux rest]
    | str s =>
      rw [fixFields_cons_nonnum key _ _ (fun m h => Json.noConfusion h),
        fixIntegerPrecision_str,
        fixFields_cons_nonnum key _ _ (fun m h => Json.noConfusion h),
        fixIntegerPrecision_str, fixIntegerPrecisionFields_idem_aux rest]
    | arr xs =>
      rw [fixFields_cons_nonnum key _ _ (fun m h => Json.noConfusion h),
        fixIntegerPrecision_arr,
        fixFields_cons_nonnum key _ _ (fun m h => Json.noConfusion h),
        fixIntegerPrecision_arr, fixIntegerPrecisionList_idem_aux xs,
        fixIntegerPrecisionFields_idem_aux rest]
    | obj gs =>
      rw [fixFields_cons_nonnum key _ _ (fun m h => Json.noConfusion h),
        fixIntegerPrecision_obj,
        fixFields_cons_nonnum key _ _ (fun m h => Json.noConfusion h),
        fixIntegerPrecision_obj, fixIntegerPrecisionFields_idem_aux gs,
        fixIntegerPrecisionFields_idem_aux rest]

end

/-- C9: `fixIntegerPrecision` is idempotent: a second pass leaves the result
of the first pass unchanged, because every rewritten timestamp field then
holds a string, which is passed through untouched. -/
theorem fixIntegerPrecision_idem (v : Json) :
    fixIntegerPrecision (fixIntegerPrecision v) = fixIntegerPrecision v :=
  fixIntegerPrecision_idem_aux v

/-- C3 exhibits a code bug: at the value 10^21 (an exactly representable
double whose default string form is `"1e+21"`), the `e+` branch stores
`Math.floor(value).toString()`, which is the very same exponential string
`"1e+21"` rather than the exact digit string `"1000000000000000000000"`
the claim (and the comment in the source) demands. -/
theorem fixIntegerPrecision_keeps_exponential_form :
    fixIntegerPrecision (Json.obj [("consensus_timestamp",
        Json.num (10 ^ 21))]) =
      Json.obj [("consensus_timestamp", Json.str "1e+21")]
    ∧ hasEPlus ("1e+21").data = true
    ∧ ("1e+21" : String) ≠ "1000000000000000000000" := by
  have hjs : jsNumToString ((10 : Int) ^ 21) = "1e+21" := by decide
  have he : hasEPlus (jsNumToString ((10 : Int) ^ 21)).data = true := by
    rw [hjs]
    decide
  refine ⟨?_, by decide, by decide⟩
  rw [fixIntegerPrecision_obj, fixIntegerPrecisionFields.eq_2,
    if_pos (Or.inl rfl), if_pos he,
    show mathFloor ((10 : Int) ^ 21) = (10 : Int) ^ 21 from rfl, hjs,
    fixIntegerPrecisionFields.eq_1]

/-- C2 exhibits a code bug: on the exact-integer timestamp string
`"1123456789"` (1.123456789 s after the epoch, exactly representable, so
every JavaScript numeric step is exact) the canonicalizer emits
`"1970-01-01T00:00:01.456789Z"`: the replacement discards the captured
millisecond digits `123` and installs only the sub-millisecond remainder
`456789`, so the fractional-seconds field parses back to 456789000 ns
instead of the input's sub-second part 123456789 ns. -/
theorem nanosToISOString_loses_millisecond_digits :
    nanosToISOString 1123456789 = "1970-01-01T00:00:01.456789Z"
    ∧ (transformTransaction
        { consensus_timestamp := 1123456789, valid_start_ns := 1123456789,
          payer_account_id := 1, node_account_id := 3, charged_tx_fee := 5,
          result := 22, decoded_memo := none, transaction_hash := "ab",
          crypto_transfer := none }).consensusTime =
        "1970-01-01T00:00:01.456789Z"
    ∧ fracDigitsAsNanos "456789" = 456789000
    ∧ 1123456789 % 1000000000 = 123456789
    ∧ fracDigitsAsNanos "456789" ≠ 1123456789 % 1000000000 := by
  refine ⟨by decide, by decide, by decide, by decide, by decide⟩

end HGraphApi

